import Mathlib

/-!
zaptest: the testing writer, the log spy and the test logger constructor.

A shallow embedding of `zaptest/logger.go`.

* Go strings and byte slices are lists of bytes (`GoString`).
* A method that mutates the object behind a pointer is a function from the
  old state to the new one.  A call that may end in a runtime panic (an
  out-of-range slice expression) returns an `Option`; `none` is the panic.
* The test handle `TestingT` is an interface, so it is a record of methods
  over the state `σ` of the object behind it.  The spy `testLogSpy` is one
  implementation, the call trace `traceT` is another.
* The logging engine (`zapcore`, `zap`) is not part of the sources; the
  definitions in the namespaces `zapcore`, `zap` and `ztest` are modelled from
  the specification and say so in their doc comments.
-/

/-! ## Go strings and the standard library functions the source calls -/

/-- A Go `string` or `[]byte`: a finite sequence of bytes. -/
abbrev GoString := List UInt8

/-- The bytes of a string literal (Go source literals are UTF-8). -/
def utf8 (s : String) : GoString := s.toList.flatMap String.utf8EncodeChar

/-- The newline byte, `'\n'`. -/
abbrev NL : UInt8 := 10

/-- The tab byte, `'\t'`. -/
abbrev TAB : UInt8 := 9

/-- Go `bytes.TrimRight(s, cutset)` for a cutset of ASCII bytes: the loop
`for len(s) > 0 && cutset contains s[len(s)-1] { s = s[:len(s)-1] }`. -/
def bytes.TrimRight (s cutset : GoString) : GoString :=
  s.rdropWhile (fun b => cutset.contains b)

/-- Go `strings.IndexByte(s, c)`: the index of the first `c` in `s`, or `-1`. -/
def strings.IndexByte : GoString → UInt8 → Int
  | [], _ => -1
  | b :: bs, c =>
    if b = c then 0
    else
      let i := strings.IndexByte bs c
      if i < 0 then -1 else i + 1

/-- The Go slice expression `m[lo:]`: a runtime panic (`none`) unless
`0 ≤ lo ≤ len(m)`. -/
def sliceFrom (m : GoString) (lo : Int) : Option GoString :=
  if 0 ≤ lo ∧ lo ≤ (m.length : Int) then some (m.drop lo.toNat) else none

/-- Go `fmt.Sprintf("%s", p)` for a byte slice `p`: the string with the bytes
of `p`. -/
def fmt.Sprintf_s (p : GoString) : GoString := p

/-- The observable state of the embedded `testing.TB` of a spy: the lines it
was asked to log. -/
structure testing.TB where
  output : List GoString
deriving DecidableEq, Repr

/-- Go `TB.Log(m)` with a single string argument. -/
def testing.TB.Log (tb : testing.TB) (m : GoString) : testing.TB :=
  { tb with output := tb.output ++ [m] }

namespace zaptest

/-! ## The test handle, the spy and the writer (`zaptest/logger.go`) -/

/-- The interface `TestingT`, reduced to the two methods `logger.go` calls on
it.  `Logf format args` is represented by the formatted text
`fmt.Sprintf(format, args...)` it is called with. -/
structure TestingT (σ : Type) where
  Logf : GoString → σ → Option σ
  Fail : σ → σ

/-- `testLogSpy`: a `testing.TB` that captures logged messages. -/
structure testLogSpy where
  TB : testing.TB
  failed : Bool
  Messages : List GoString
deriving DecidableEq, Repr

/-- `newTestLogSpy(t)`: `&testLogSpy{TB: t}`. -/
def newTestLogSpy (t : testing.TB) : testLogSpy :=
  { TB := t, failed := false, Messages := [] }

/-- `(*testLogSpy).Fail`. -/
def testLogSpy.Fail (t : testLogSpy) : testLogSpy :=
  { t with failed := true }

/-- `(*testLogSpy).Failed`. -/
def testLogSpy.Failed (t : testLogSpy) : Bool := t.failed

/-- `(*testLogSpy).Logf`, on the formatted message `m = fmt.Sprintf(format,
args...)`: `m = m[strings.IndexByte(m, '\t')+1:]`, then the append to
`Messages` and `t.TB.Log(m)`. -/
def testLogSpy.Logf (t : testLogSpy) (m : GoString) : Option testLogSpy :=
  match sliceFrom m (strings.IndexByte m TAB + 1) with
  | none => none
  | some m1 => some { t with Messages := t.Messages ++ [m1], TB := t.TB.Log m1 }

/-- The spy seen through the interface `TestingT`. -/
def spyT : TestingT testLogSpy :=
  { Logf := fun m t => t.Logf m, Fail := fun t => t.Fail }

/-- One call received by a test handle. -/
inductive TCall where
  | Logf (text : GoString)
  | Fail
deriving DecidableEq, Repr

/-- A test handle that only records, in order, the calls made on it. -/
def traceT : TestingT (List TCall) :=
  { Logf := fun m s => some (s ++ [TCall.Logf m]), Fail := fun s => s ++ [TCall.Fail] }

/-- `TestingWriter`: a WriteSyncer that writes to the given test handle. -/
structure TestingWriter (σ : Type) where
  t : TestingT σ
  markFailed : Bool

/-- `NewTestingWriter(t)`: `TestingWriter{t: t}`. -/
def NewTestingWriter {σ : Type} (t : TestingT σ) : TestingWriter σ :=
  { t := t, markFailed := false }

/-- `TestingWriter.WithMarkFailed(v)`: the receiver is a value, so the
assignment is made on a copy, which is returned. -/
def TestingWriter.WithMarkFailed {σ : Type} (w : TestingWriter σ) (v : Bool) :
    TestingWriter σ :=
  { w with markFailed := v }

/-- `TestingWriter.Write(p)`: the result is `(n, err)` and the new state of
the test handle. -/
def TestingWriter.Write {σ : Type} (w : TestingWriter σ) (p : GoString) (s : σ) :
    Option ((Nat × Option GoString) × σ) :=
  let n := p.length
  let p := bytes.TrimRight p (utf8 "\n")
  match w.t.Logf (fmt.Sprintf_s p) s with
  | none => none
  | some s1 =>
    let s2 := if w.markFailed then w.t.Fail s1 else s1
    some ((n, none), s2)

/-- `TestingWriter.Sync()`: returns nil. -/
def TestingWriter.Sync {σ : Type} (_w : TestingWriter σ) : Option GoString := none

end zaptest

/-! ## The logging engine -/

namespace zapcore

/-- Modelled from the spec: the severity levels of the logging engine, whose
declaration (`zapcore.Level`) is not in the sources; the spec enumerates
debug, info, warn, error, panic, fatal. -/
inductive Level where
  | DebugLevel | InfoLevel | WarnLevel | ErrorLevel | PanicLevel | FatalLevel
deriving DecidableEq, Repr

/-- Modelled from the spec: the order of the severity levels, which the
missing engine defines; debug < info < warn < error < panic < fatal. -/
def Level.rank : Level → Nat
  | DebugLevel => 0
  | InfoLevel => 1
  | WarnLevel => 2
  | ErrorLevel => 3
  | PanicLevel => 4
  | FatalLevel => 5

/-- Modelled from the spec: the capitalised level name that the missing
console encoder prints (`DEBUG`, `INFO`, ... in the tests). -/
def Level.CapitalString : Level → GoString
  | DebugLevel => utf8 "DEBUG"
  | InfoLevel => utf8 "INFO"
  | WarnLevel => utf8 "WARN"
  | ErrorLevel => utf8 "ERROR"
  | PanicLevel => utf8 "PANIC"
  | FatalLevel => utf8 "FATAL"

/-- Modelled from the spec: the missing interface `zapcore.LevelEnabler`, a
predicate that says which severities are logged. -/
abbrev LevelEnabler := Level → Bool

/-- Modelled from the spec: a level used as the minimum severity (the missing
`Level.Enabled`); a message is logged when its severity is not below it. -/
def Level.Enabled (l lvl : Level) : Bool := decide (l.rank ≤ lvl.rank)

/-- Modelled from the spec: the time of a log record, owned by the missing
engine, given by its two renderings: the timestamp column of a log line and
the text printed in front of an internal error. -/
structure Time where
  stamp : GoString
  text : GoString
deriving DecidableEq, Repr

/-- Modelled from the spec: the transient log record of the missing engine
(timestamp, level, message), with the caller, when the logger records one,
and the stack trace, empty when the logger takes none. -/
structure Entry where
  Level : Level
  Time : Time
  Message : GoString
  Caller : Option GoString
  Stack : GoString
deriving DecidableEq, Repr

/-- Modelled from the spec: one structured field of a log call (missing
`zapcore.Field`), given by its rendering `"key": value` in the log line. -/
abbrev Field := GoString

/-- Modelled from the spec: the missing interface `zapcore.Encoder`, which
formats a record and its fields into one line. -/
abbrev Encoder := Entry → List Field → GoString

/-- Modelled from the spec: the last column of a line of the missing console
encoder: nothing for a call without fields, else a tab and the fields between
braces (`\t{data here}` in the comment in `testLogSpy.Logf`). -/
def fieldsColumn (fields : List Field) : GoString :=
  if fields = [] then []
  else [TAB] ++ utf8 "\x7b" ++ (utf8 ", ").intercalate fields ++ utf8 "\x7d"

/-- Modelled from the spec: the caller column of a line of the missing console
encoder: nothing when the record has no caller, else a tab and the caller
(`zaptest/logger_test.go:89` in the tests). -/
def callerColumn (caller : Option GoString) : GoString :=
  match caller with
  | none => []
  | some c => [TAB] ++ c

/-- Modelled from the spec: the stack trace of a line of the missing console
encoder: nothing when the record has no stack trace, else the trace on the
lines that follow the fields. -/
def stackLines (stack : GoString) : GoString :=
  if stack = [] then [] else [NL] ++ stack

/-- Modelled from the spec: the missing console encoder with the development
configuration; the line format is the one documented in `testLogSpy.Logf`,
`<timestamp>\t<LEVEL>\t<message>\t{<fields>}`, with the caller column of the
tests between level and message and the stack trace last, ended by a
newline. -/
def NewConsoleEncoder : Encoder := fun ent fields =>
  ent.Time.stamp ++ [TAB] ++ ent.Level.CapitalString ++ callerColumn ent.Caller ++ [TAB] ++
    ent.Message ++ fieldsColumn fields ++ stackLines ent.Stack ++ [NL]

/-- Modelled from the spec: the missing interface `zapcore.WriteSyncer`, a
sink; a write returns the byte count and an error, or nil. -/
structure WriteSyncer (σ : Type) where
  Write : GoString → σ → Option ((Nat × Option GoString) × σ)

/-- Modelled from the spec: the core of the missing engine: an encoder, a
sink, the minimum severity, and the fields added to every record. -/
structure Core (σ : Type) where
  enc : Encoder
  out : WriteSyncer σ
  enab : LevelEnabler
  context : List Field

/-- Modelled from the spec: the missing constructor `zapcore.NewCore`. -/
def NewCore {σ : Type} (enc : Encoder) (ws : WriteSyncer σ) (enab : LevelEnabler) :
    Core σ :=
  { enc := enc, out := ws, enab := enab, context := [] }

/-- Modelled from the spec: the missing `Core.With`: a core that adds the
given fields to every record, after the ones it already adds. -/
def Core.With {σ : Type} (c : Core σ) (fields : List Field) : Core σ :=
  { c with context := c.context ++ fields }

/-- Modelled from the spec: the missing `Core.Enabled`, the level filter. -/
def Core.Enabled {σ : Type} (c : Core σ) (lvl : Level) : Bool := c.enab lvl

/-- Modelled from the spec: the missing `Core.Write`: the line formatted from
the record, the fields of the core and the fields of the call reaches the
sink in one write, whose error is returned. -/
def Core.Write {σ : Type} (c : Core σ) (ent : Entry) (fields : List Field) (s : σ) :
    Option (Option GoString × σ) :=
  match c.out.Write (c.enc ent (c.context ++ fields)) s with
  | none => none
  | some ((_, err), s1) => some (err, s1)

end zapcore

namespace ztest

/-- Modelled from the spec: `ztest.FailWriter`, named by the tests and not in
the sources: a sink whose every write fails with the error `failed`. -/
def FailWriter {σ : Type} : zapcore.WriteSyncer σ :=
  { Write := fun _ s => some ((0, some (utf8 "failed")), s) }

end ztest

namespace zap

/-- Modelled from the spec: how a log call ends: it returns, it raises a
runtime panic with the message, or it terminates the process. -/
inductive Outcome where
  | returned
  | panicked (v : GoString)
  | exited
deriving DecidableEq, Repr

/-- Modelled from the spec: the logger of the missing engine: a core, the
sink its internal errors are sent to, whether it records the caller of a log
call and how many frames it skips to find it, and the severities it takes a
stack trace for. -/
structure Logger (σ : Type) where
  core : zapcore.Core σ
  errorOutput : zapcore.WriteSyncer σ
  addCaller : Bool
  callerSkip : Int
  addStack : zapcore.LevelEnabler

/-- Modelled from the spec: the missing type `zap.Option`, with the options
the sources pass: `zap.ErrorOutput(w)`, `zap.WrapCore(f)`, `zap.Fields(fs...)`,
`zap.AddCaller()`, `zap.AddCallerSkip(skip)` and `zap.AddStacktrace(lvl)`. -/
inductive Opt (σ : Type) where
  | ErrorOutput (w : zapcore.WriteSyncer σ)
  | WrapCore (f : zapcore.Core σ → zapcore.Core σ)
  | Fields (fs : List zapcore.Field)
  | AddCaller
  | AddCallerSkip (skip : Int)
  | AddStacktrace (lvl : zapcore.LevelEnabler)

/-- Modelled from the spec: applying one option of the missing engine to a
logger. -/
def Opt.apply {σ : Type} : Opt σ → Logger σ → Logger σ
  | ErrorOutput w, log => { log with errorOutput := w }
  | WrapCore f, log => { log with core := f log.core }
  | Fields fs, log => { log with core := log.core.With fs }
  | AddCaller, log => { log with addCaller := true }
  | AddCallerSkip skip, log => { log with callerSkip := log.callerSkip + skip }
  | AddStacktrace lvl, log => { log with addStack := lvl }

/-- Modelled from the spec: the missing `Logger.WithOptions`: the options are
applied in the order given. -/
def Logger.WithOptions {σ : Type} (log : Logger σ) (opts : List (Opt σ)) : Logger σ :=
  opts.foldl (fun l o => o.apply l) log

/-- Modelled from the spec: the standard error stream, the default error sink
of the missing engine; it is outside the test handle. -/
def stderr {σ : Type} : zapcore.WriteSyncer σ :=
  { Write := fun p s => some ((p.length, none), s) }

/-- Modelled from the spec: the missing constructor `zap.New(core,
options...)`: no caller, no stack trace, errors to the standard error stream,
then the options. -/
def New {σ : Type} (core : zapcore.Core σ) (options : List (Opt σ)) : Logger σ :=
  Logger.WithOptions
    { core := core, errorOutput := stderr, addCaller := false, callerSkip := 0,
      addStack := fun _ => false } options

/-- Modelled from the spec: what the Go runtime knows at the place of a log
call: the rendering of the caller found when a given number of frames is
skipped, and the stack trace. -/
structure Site where
  caller : Int → GoString
  stack : GoString

/-- Modelled from the spec: the record the missing engine makes of a log
call: the caller when the logger records callers, the stack trace when the
logger takes one at this severity. -/
def Logger.entry {σ : Type} (log : Logger σ) (lvl : zapcore.Level) (now : zapcore.Time)
    (msg : GoString) (site : Site) : zapcore.Entry :=
  { Level := lvl, Time := now, Message := msg,
    Caller := if log.addCaller then some (site.caller log.callerSkip) else none,
    Stack := if log.addStack lvl then site.stack else [] }

/-- Modelled from the spec: what the missing engine does when a log call is
over: a call at panic severity raises a runtime panic with the message, one
at fatal severity terminates the process, any other returns. -/
def afterWrite (lvl : zapcore.Level) (msg : GoString) : Outcome :=
  match lvl with
  | zapcore.Level.PanicLevel => Outcome.panicked msg
  | zapcore.Level.FatalLevel => Outcome.exited
  | _ => Outcome.returned

/-- Modelled from the spec: one log call on the missing engine.  A severity
the core does not enable writes nothing; an enabled one is written to the
core, and an error of the sink is written to the error output as
`<time> write error: <error>`; after that a call at panic severity raises a
runtime panic and one at fatal severity terminates the process. -/
def Logger.Log {σ : Type} (log : Logger σ) (lvl : zapcore.Level) (now : zapcore.Time)
    (msg : GoString) (fields : List zapcore.Field) (site : Site) (s : σ) :
    Option (Outcome × σ) :=
  let ent : zapcore.Entry := log.entry lvl now msg site
  let after : Outcome := afterWrite lvl msg
  if log.core.Enabled lvl then
    match log.core.Write ent fields s with
    | none => none
    | some (none, s1) => some (after, s1)
    | some (some err, s1) =>
      match log.errorOutput.Write (now.text ++ utf8 " write error: " ++ err ++ [NL]) s1 with
      | none => none
      | some (_, s2) => some (after, s2)
  else some (after, s)

/-- One log call of a test: severity, time, message, fields and the place of
the call. -/
structure Call where
  lvl : zapcore.Level
  now : zapcore.Time
  msg : GoString
  fields : List zapcore.Field
  site : Site

/-- A sequence of log calls made one after the other, as the tests make them:
a panic is recovered by the caller and the next call is made, a process exit
ends the sequence.  The result is the number of calls made and the final
state. -/
def Logger.runCalls {σ : Type} (log : Logger σ) : List Call → σ → Option (Nat × σ)
  | [], s => some (0, s)
  | c :: cs, s =>
    match log.Log c.lvl c.now c.msg c.fields c.site s with
    | none => none
    | some (Outcome.exited, s1) => some (1, s1)
    | some (_, s1) =>
      match Logger.runCalls log cs s1 with
      | none => none
      | some (n, s2) => some (n + 1, s2)

end zap

namespace zaptest

/-! ## The option builder and `NewLogger` (`zaptest/logger.go`) -/

/-- `LoggerOptions`. -/
structure LoggerOptions (σ : Type) where
  Level : zapcore.LevelEnabler
  ZapOptions : List (zap.Opt σ)

/-- `LoggerOption`, given as a `LoggerOptionFunc`: `ApplyLoggerOption` updates
the options behind the pointer. -/
abbrev LoggerOption (σ : Type) := LoggerOptions σ → LoggerOptions σ

/-- `Level(enab)`: `opts.Level = enab`. -/
def Level {σ : Type} (enab : zapcore.LevelEnabler) : LoggerOption σ :=
  fun opts => { opts with Level := enab }

/-- `WrapOptions(zapOpts...)`: `opts.ZapOptions = zapOpts`. -/
def WrapOptions {σ : Type} (zapOpts : List (zap.Opt σ)) : LoggerOption σ :=
  fun opts => { opts with ZapOptions := zapOpts }

/-- The first part of `NewLogger`: `cfg := LoggerOptions{Level:
zapcore.DebugLevel}` and the loop `o.ApplyLoggerOption(&cfg)`. -/
def NewLogger.cfg {σ : Type} (opts : List (LoggerOption σ)) : LoggerOptions σ :=
  opts.foldl (fun cfg o => o cfg)
    { Level := zapcore.Level.Enabled zapcore.Level.DebugLevel, ZapOptions := [] }

/-- The sink view of a `TestingWriter` (it implements `zapcore.WriteSyncer`). -/
def TestingWriter.syncer {σ : Type} (w : TestingWriter σ) : zapcore.WriteSyncer σ :=
  { Write := w.Write }

/-- `NewLogger(t, opts...)`. -/
def NewLogger {σ : Type} (t : TestingT σ) (opts : List (LoggerOption σ)) : zap.Logger σ :=
  let cfg := NewLogger.cfg opts
  let writer := NewTestingWriter t
  let zapOptions := [zap.Opt.ErrorOutput (writer.WithMarkFailed true).syncer]
  let zapOptions := zapOptions ++ cfg.ZapOptions
  zap.New (zapcore.NewCore zapcore.NewConsoleEncoder writer.syncer cfg.Level) zapOptions

/-- Whether a zap option replaces the core of the logger. -/
def wrapsCore {σ : Type} : zap.Opt σ → Bool
  | zap.Opt.WrapCore _ => true
  | _ => false

/-- Whether a zap option replaces the error output of the logger. -/
def setsErrorOutput {σ : Type} : zap.Opt σ → Bool
  | zap.Opt.ErrorOutput _ => true
  | _ => false

/-- Whether a zap option adds something to the lines of the logger: fields, a
caller column or a stack trace. -/
def addsToLine {σ : Type} : zap.Opt σ → Bool
  | zap.Opt.Fields _ => true
  | zap.Opt.AddCaller => true
  | zap.Opt.AddStacktrace _ => true
  | _ => false

/-- The fields that the `zap.Fields` options of a list add, in order. -/
def addedFields {σ : Type} : List (zap.Opt σ) → List zapcore.Field
  | [] => []
  | zap.Opt.Fields fs :: os => fs ++ addedFields os
  | _ :: os => addedFields os

/-- The part of a message that follows its first tab, the whole message when
it has none: what `m[strings.IndexByte(m, '\t')+1:]` evaluates to. -/
def afterFirstTab (m : GoString) : GoString :=
  m.drop (strings.IndexByte m TAB + 1).toNat

/-- An option as the caller of `NewLogger` writes it: `Level(enab)` or
`WrapOptions(zapOpts...)`. -/
inductive OptionCall (σ : Type) where
  | level (enab : zapcore.LevelEnabler)
  | wrap (zapOpts : List (zap.Opt σ))

/-- The `LoggerOption` an option call evaluates to. -/
def OptionCall.option {σ : Type} : OptionCall σ → LoggerOption σ
  | OptionCall.level enab => Level enab
  | OptionCall.wrap zapOpts => WrapOptions zapOpts

/-- Whether an option call is a `Level` option. -/
def OptionCall.isLevel {σ : Type} : OptionCall σ → Bool
  | OptionCall.level _ => true
  | OptionCall.wrap _ => false

/-- The line a log call on a logger is expected to leave in `Messages`: the
level name, the caller column if the logger records callers, a tab, and the
message with the fields column and the stack trace, without trailing
newlines. -/
def capturedLine {σ : Type} (log : zap.Logger σ) (c : zap.Call) : GoString :=
  c.lvl.CapitalString ++
    zapcore.callerColumn (log.entry c.lvl c.now c.msg c.site).Caller ++ [TAB] ++
    bytes.TrimRight
      (c.msg ++ zapcore.fieldsColumn (log.core.context ++ c.fields) ++
        zapcore.stackLines (log.entry c.lvl c.now c.msg c.site).Stack) (utf8 "\n")

/-- What the spy keeps of the line the console encoder makes of a log call on
a logger: the line without its trailing newlines (`TestingWriter.Write`) and
without what comes up to its first tab (`testLogSpy.Logf`). -/
def spiedLine {σ : Type} (log : zap.Logger σ) (c : zap.Call) : GoString :=
  afterFirstTab (bytes.TrimRight
    (zapcore.NewConsoleEncoder (log.entry c.lvl c.now c.msg c.site)
      (log.core.context ++ c.fields))
    (utf8 "\n"))

/-- The spy after it has captured one more line. -/
def testLogSpy.captured (s : testLogSpy) (line : GoString) : testLogSpy :=
  { s with Messages := s.Messages ++ [line], TB := s.TB.Log line }

/-- A fresh spy over a test that has logged nothing. -/
def freshSpy : testLogSpy := newTestLogSpy { output := [] }

/-- A sample time: the timestamp of the comment in `testLogSpy.Logf` and a
text rendering of it. -/
def sampleTime : zapcore.Time :=
  { stamp := utf8 "2017-10-27T13:03:01.000-0700",
    text := utf8 "2017-10-27 13:03:01 -0700 PDT" }

/-- A place of call in a test: the caller is the given line of the test file
when no frame is skipped, and the testing runner otherwise. -/
def siteAt (line : GoString) : zap.Site :=
  { caller := fun skip => if skip = 0 then line else utf8 "testing/testing.go:1",
    stack := utf8 "zaptest.TestTestLogger\n\tzaptest/logger_test.go" }

/-- The log calls of `TestTestLogger`: Info, Debug, Warn, Error with an error
field, Panic, at the lines the tests expect. -/
def testLoggerCalls : List zap.Call :=
  [ ⟨zapcore.Level.InfoLevel, sampleTime, utf8 "received work order", [],
      siteAt (utf8 "zaptest/logger_test.go:89")⟩,
    ⟨zapcore.Level.DebugLevel, sampleTime, utf8 "starting work", [],
      siteAt (utf8 "zaptest/logger_test.go:90")⟩,
    ⟨zapcore.Level.WarnLevel, sampleTime, utf8 "work may fail", [],
      siteAt (utf8 "zaptest/logger_test.go:91")⟩,
    ⟨zapcore.Level.ErrorLevel, sampleTime, utf8 "work failed",
      [utf8 "\"error\": \"great sadness\""], siteAt (utf8 "zaptest/logger_test.go:92")⟩,
    ⟨zapcore.Level.PanicLevel, sampleTime, utf8 "failed to do work", [],
      siteAt (utf8 "zaptest/logger_test.go:95")⟩ ]

/-- The core of `TestTestLoggerErrorOutput`: a console encoder over a sink
that fails, at `DebugLevel`. -/
def failingCore : zapcore.Core testLogSpy :=
  zapcore.NewCore zapcore.NewConsoleEncoder ztest.FailWriter
    (zapcore.Level.Enabled zapcore.Level.DebugLevel)

end zaptest

/-! ## Lemmas on the standard library functions -/

theorem utf8_newline : utf8 "\n" = [NL] := by decide

theorem cutset_newline (b : UInt8) : (utf8 "\n").contains b = (b == NL) := by
  rw [utf8_newline]
  cases h : b == NL <;> simp [List.contains, List.elem, h]

theorem TrimRight_nil (c : GoString) : bytes.TrimRight [] c = [] := by
  simp [bytes.TrimRight]

theorem TrimRight_snoc_newline (l : GoString) :
    bytes.TrimRight (l ++ [NL]) (utf8 "\n") = bytes.TrimRight l (utf8 "\n") := by
  unfold bytes.TrimRight
  rw [List.rdropWhile_concat_pos]
  rw [cutset_newline]
  simp

theorem TrimRight_snoc_other (l : GoString) (x : UInt8) (hx : x ≠ NL) :
    bytes.TrimRight (l ++ [x]) (utf8 "\n") = l ++ [x] := by
  unfold bytes.TrimRight
  rw [List.rdropWhile_concat_neg]
  rw [cutset_newline]
  simpa using hx

/-- The input is the trimmed text followed by newlines only. -/
theorem TrimRight_decomp (p : GoString) :
    ∃ k : Nat, p = bytes.TrimRight p (utf8 "\n") ++ List.replicate k NL := by
  induction p using List.reverseRecOn with
  | nil => exact ⟨0, by simp [TrimRight_nil]⟩
  | append_singleton l x ih =>
    by_cases hx : x = NL
    · obtain ⟨k, hk⟩ := ih
      refine ⟨k + 1, ?_⟩
      subst hx
      rw [TrimRight_snoc_newline, List.replicate_succ', ← List.append_assoc, ← hk]
    · exact ⟨0, by rw [TrimRight_snoc_other l x hx]; simp⟩

/-- The trimmed text does not end in a newline. -/
theorem TrimRight_last (p : GoString) :
    (bytes.TrimRight p (utf8 "\n")).getLast? ≠ some NL := by
  induction p using List.reverseRecOn with
  | nil => simp [TrimRight_nil]
  | append_singleton l x ih =>
    by_cases hx : x = NL
    · subst hx
      rw [TrimRight_snoc_newline]
      exact ih
    · rw [TrimRight_snoc_other l x hx]
      simpa using hx

/-- Trimming stops at the last byte that is not a newline. -/
theorem TrimRight_append (a b : GoString) (x : UInt8) (hx : x ≠ NL) :
    bytes.TrimRight (a ++ x :: b) (utf8 "\n") = a ++ x :: bytes.TrimRight b (utf8 "\n") := by
  induction b using List.reverseRecOn with
  | nil =>
    rw [TrimRight_nil]
    exact TrimRight_snoc_other a x hx
  | append_singleton l y ih =>
    have e : a ++ x :: (l ++ [y]) = (a ++ x :: l) ++ [y] := by simp
    by_cases hy : y = NL
    · subst hy
      rw [e, TrimRight_snoc_newline, TrimRight_snoc_newline, ih]
    · rw [e, TrimRight_snoc_other _ y hy, TrimRight_snoc_other _ y hy]
      simp

/-- A text that does not end in a newline is left as it is. -/
theorem TrimRight_id (p : GoString) (h : p.getLast? ≠ some NL) :
    bytes.TrimRight p (utf8 "\n") = p := by
  induction p using List.reverseRecOn with
  | nil => exact TrimRight_nil _
  | append_singleton l x _ =>
    apply TrimRight_snoc_other
    intro hx
    apply h
    simp [hx]

theorem IndexByte_cons (b : UInt8) (bs : GoString) (c : UInt8) :
    strings.IndexByte (b :: bs) c =
      if b = c then 0
      else if strings.IndexByte bs c < 0 then -1 else strings.IndexByte bs c + 1 := rfl

theorem IndexByte_bounds (m : GoString) (c : UInt8) :
    -1 ≤ strings.IndexByte m c ∧ strings.IndexByte m c < (m.length : Int) := by
  induction m with
  | nil => simp [strings.IndexByte]
  | cons b bs ih =>
    rw [IndexByte_cons, List.length_cons]
    obtain ⟨h1, h2⟩ := ih
    split_ifs <;> constructor <;> omega

theorem IndexByte_absent (m : GoString) (c : UInt8) (h : c ∉ m) :
    strings.IndexByte m c = -1 := by
  induction m with
  | nil => simp [strings.IndexByte]
  | cons b bs ih =>
    simp only [List.mem_cons, not_or] at h
    have hb : b ≠ c := fun e => h.1 e.symm
    simp [strings.IndexByte, hb, ih h.2]

theorem IndexByte_first (a b : GoString) (c : UInt8) (h : c ∉ a) :
    strings.IndexByte (a ++ c :: b) c = (a.length : Int) := by
  induction a with
  | nil => simp [strings.IndexByte]
  | cons x xs ih =>
    simp only [List.mem_cons, not_or] at h
    have hb : x ≠ c := fun e => h.1 e.symm
    have := ih h.2
    rw [List.cons_append, IndexByte_cons, if_neg hb, this, List.length_cons]
    split_ifs <;> push_cast <;> omega

namespace zaptest

theorem Logf_eq (t : testLogSpy) (m : GoString) :
    t.Logf m = some { t with
      Messages := t.Messages ++ [afterFirstTab m],
      TB := t.TB.Log (afterFirstTab m) } := by
  have hb := IndexByte_bounds m TAB
  have hs : sliceFrom m (strings.IndexByte m TAB + 1) = some (afterFirstTab m) := by
    unfold sliceFrom afterFirstTab
    rw [if_pos]
    constructor <;> omega
  unfold testLogSpy.Logf
  rw [hs]

theorem afterFirstTab_absent (m : GoString) (h : TAB ∉ m) : afterFirstTab m = m := by
  unfold afterFirstTab
  rw [IndexByte_absent m TAB h]
  simp

theorem afterFirstTab_first (a b : GoString) (h : TAB ∉ a) :
    afterFirstTab (a ++ TAB :: b) = b := by
  unfold afterFirstTab
  rw [IndexByte_first a b TAB h]
  have : ((a.length : Int) + 1).toNat = a.length + 1 := by omega
  rw [this]
  simp

end zaptest

namespace zaptest

/-! ## The writer and the spy -/

theorem Write_spy (markFailed : Bool) (p : GoString) (s : testLogSpy) :
    ({ t := spyT, markFailed := markFailed } : TestingWriter testLogSpy).Write p s =
      some ((p.length, none),
        { TB := s.TB.Log (afterFirstTab (bytes.TrimRight p (utf8 "\n"))),
          failed := markFailed || s.failed,
          Messages := s.Messages ++ [afterFirstTab (bytes.TrimRight p (utf8 "\n"))] }) := by
  simp only [TestingWriter.Write, spyT, fmt.Sprintf_s, Logf_eq]
  cases markFailed <;> simp [testLogSpy.Fail]

theorem Write_trace (markFailed : Bool) (p : GoString) (calls : List TCall) :
    ({ t := traceT, markFailed := markFailed } : TestingWriter (List TCall)).Write p calls =
      some ((p.length, none),
        calls ++ [TCall.Logf (bytes.TrimRight p (utf8 "\n"))] ++
          (if markFailed then [TCall.Fail] else [])) := by
  cases markFailed <;> simp [TestingWriter.Write, traceT, fmt.Sprintf_s]

/-- C1: for every buffer `p`, `Write(p)` returns `n = len(p)`, the length
before the newlines are stripped, and a nil error: through any test handle
whose `Logf` call returns, and always through the spy, whatever `markFailed`
is. -/
theorem Write_returns_length (p : GoString) :
    (∀ (σ : Type) (w : TestingWriter σ) (s s1 : σ),
        w.t.Logf (fmt.Sprintf_s (bytes.TrimRight p (utf8 "\n"))) s = some s1 →
        ∃ s2, w.Write p s = some ((p.length, none), s2)) ∧
    (∀ (markFailed : Bool) (s : testLogSpy),
        ∃ s2, ({ t := spyT, markFailed := markFailed } : TestingWriter testLogSpy).Write p s =
          some ((p.length, none), s2)) := by
  constructor
  · intro σ w s s1 h
    simp only [TestingWriter.Write, h]
    exact ⟨_, rfl⟩
  · intro markFailed s
    exact ⟨_, Write_spy markFailed p s⟩

/-- C1 at the input of `TestTestingWriter`: writing `"hello\n\n"` returns 7
and no error. -/
theorem Write_returns_length_witness :
    ∃ s2, (NewTestingWriter spyT).Write (utf8 "hello\n\n") freshSpy = some ((7, none), s2) :=
  (Write_returns_length (utf8 "hello\n\n")).2 false freshSpy

/-- C2: `Write(p)` makes exactly one `Logf` call on the test handle (followed
by `Fail` when `markFailed` is set and by nothing else); the relayed text is
`p` without its trailing newlines: `p` is the relayed text followed by `k`
newline bytes and the relayed text does not end in a newline. -/
theorem Write_relays_trimmed (p : GoString) (markFailed : Bool) (calls : List TCall) :
    ∃ (relayed : GoString) (k : Nat),
      ({ t := traceT, markFailed := markFailed } : TestingWriter (List TCall)).Write p calls =
        some ((p.length, none),
          calls ++ [TCall.Logf relayed] ++ (if markFailed then [TCall.Fail] else [])) ∧
      p = relayed ++ List.replicate k NL ∧
      relayed.getLast? ≠ some NL := by
  obtain ⟨k, hk⟩ := TrimRight_decomp p
  exact ⟨bytes.TrimRight p (utf8 "\n"), k, Write_trace markFailed p calls, hk,
    TrimRight_last p⟩

/-- C2 on a buffer with a leading, an interior and two trailing newlines. -/
theorem Write_relays_trimmed_witness :
    (NewTestingWriter traceT).Write (utf8 "\na\nb\n\n") [] =
      some ((6, none), [TCall.Logf (utf8 "\na\nb")]) := by
  decide

/-- C3: a write through `w.WithMarkFailed(v)` calls `Fail` on the test handle
exactly when `v` is true (the calls it makes are one `Logf`, then `Fail` when
`v`); on the spy the failed flag is true afterwards when `v` is true and keeps
its value when `v` is false.  A writer fresh from `NewTestingWriter` has
`markFailed` false and leaves the failed flag as it was.  `WithMarkFailed`
returns a writer over the same test handle with `markFailed = v`; the
receiver is a value, which the call cannot change. -/
theorem WithMarkFailed_controls_Fail (v : Bool) (p : GoString) :
    (∀ (w : TestingWriter (List TCall)) (calls : List TCall), w.t = traceT →
        ∃ relayed, ((w.WithMarkFailed v).Write p calls).map (fun r => r.2) =
          some (calls ++ [TCall.Logf relayed] ++ (if v then [TCall.Fail] else []))) ∧
    (∀ (w : TestingWriter testLogSpy) (s : testLogSpy), w.t = spyT →
        ∃ s2, ((w.WithMarkFailed v).Write p s).map (fun r => r.2) = some s2 ∧
          s2.failed = (if v then true else s.failed)) ∧
    (∀ (σ : Type) (t : TestingT σ), (NewTestingWriter t).markFailed = false) ∧
    (∀ s : testLogSpy, ∃ s2, ((NewTestingWriter spyT).Write p s).map (fun r => r.2) = some s2 ∧
        s2.failed = s.failed) ∧
    (∀ (σ : Type) (w : TestingWriter σ),
        (w.WithMarkFailed v).t = w.t ∧ (w.WithMarkFailed v).markFailed = v) := by
  refine ⟨?_, ?_, ?_, ?_, ?_⟩
  · intro w calls hw
    refine ⟨bytes.TrimRight p (utf8 "\n"), ?_⟩
    have e : w.WithMarkFailed v = { t := traceT, markFailed := v } := by
      simp [TestingWriter.WithMarkFailed, hw]
    rw [e, Write_trace]
    rfl
  · intro w s hw
    have e : w.WithMarkFailed v = { t := spyT, markFailed := v } := by
      simp [TestingWriter.WithMarkFailed, hw]
    rw [e, Write_spy]
    refine ⟨_, rfl, ?_⟩
    cases v <;> simp
  · intro σ t
    rfl
  · intro s
    have e : NewTestingWriter spyT = { t := spyT, markFailed := false } := rfl
    rw [e, Write_spy]
    exact ⟨_, rfl, by simp⟩
  · intro σ w
    exact ⟨rfl, rfl⟩

/-- C3 on a spy that has not failed: the write through `WithMarkFailed(true)`
sets the failed flag, the one through `WithMarkFailed(false)` does not. -/
theorem WithMarkFailed_controls_Fail_witness :
    (((NewTestingWriter spyT).WithMarkFailed true).Write (utf8 "x\n") freshSpy).map
        (fun r => r.2.failed) = some true ∧
    (((NewTestingWriter spyT).WithMarkFailed false).Write (utf8 "x\n") freshSpy).map
        (fun r => r.2.failed) = some false := by
  decide

/-- C10: `Logf` on a formatted message `m` never fails on the slice bounds; it
appends exactly one entry at the end of `Messages` and keeps the earlier
entries and the failed flag.  The entry is `m` when `m` has no tab, it is what
follows the first tab of `m` otherwise, and so it is empty when the first tab
is the last character of `m`. -/
theorem Logf_appends_one (t : testLogSpy) (m : GoString) :
    ∃ (t2 : testLogSpy) (e : GoString),
      t.Logf m = some t2 ∧
      t2.Messages = t.Messages ++ [e] ∧
      t2.failed = t.failed ∧
      t2.TB = t.TB.Log e ∧
      (TAB ∉ m → e = m) ∧
      (∀ a b : GoString, TAB ∉ a → m = a ++ TAB :: b → e = b) ∧
      (∀ a : GoString, TAB ∉ a → m = a ++ [TAB] → e = []) := by
  refine ⟨_, afterFirstTab m, Logf_eq t m, rfl, rfl, rfl, ?_, ?_, ?_⟩
  · exact afterFirstTab_absent m
  · intro a b ha hm
    rw [hm]
    exact afterFirstTab_first a b ha
  · intro a ha hm
    rw [hm]
    exact afterFirstTab_first a [] ha

set_option maxRecDepth 8000 in
/-- C10 on the line of the comment in `Logf`, on a message without a tab and
on a message whose only tab is its last character. -/
theorem Logf_appends_one_witness :
    (freshSpy.Logf (utf8 "2017-10-27T13:03:01.000-0700\tDEBUG\tyour message here")).map
        (fun t => t.Messages) = some [utf8 "DEBUG\tyour message here"] ∧
    (freshSpy.Logf (utf8 "no tab")).map (fun t => t.Messages) = some [utf8 "no tab"] ∧
    (freshSpy.Logf (utf8 "stamp\t")).map (fun t => t.Messages) = some [[]] := by
  decide

end zaptest

namespace zaptest

/-! ## Loggers built by `NewLogger` -/

theorem WithOptions_cons {σ : Type} (o : zap.Opt σ) (os : List (zap.Opt σ))
    (log : zap.Logger σ) :
    log.WithOptions (o :: os) = (o.apply log).WithOptions os := rfl

/-- Options that do not wrap the core leave its encoder, sink and level; the
fields of the `zap.Fields` options are added to it in order. -/
theorem WithOptions_core {σ : Type} (opts : List (zap.Opt σ)) (log : zap.Logger σ)
    (h : ∀ o ∈ opts, wrapsCore o = false) :
    (log.WithOptions opts).core =
      { log.core with context := log.core.context ++ addedFields opts } := by
  induction opts generalizing log with
  | nil => simp [zap.Logger.WithOptions, addedFields]
  | cons o os ih =>
    have ho := h o (List.mem_cons_self _ _)
    have ht : ∀ o2 ∈ os, wrapsCore o2 = false := fun o2 h2 => h o2 (List.mem_cons_of_mem _ h2)
    rw [WithOptions_cons, ih _ ht]
    cases o with
    | WrapCore f => simp [wrapsCore] at ho
    | Fields fs => simp [zap.Opt.apply, zapcore.Core.With, addedFields]
    | ErrorOutput w => simp [zap.Opt.apply, addedFields]
    | AddCaller => simp [zap.Opt.apply, addedFields]
    | AddCallerSkip n => simp [zap.Opt.apply, addedFields]
    | AddStacktrace l => simp [zap.Opt.apply, addedFields]

theorem WithOptions_errorOutput {σ : Type} (opts : List (zap.Opt σ)) (log : zap.Logger σ)
    (h : ∀ o ∈ opts, setsErrorOutput o = false) :
    (log.WithOptions opts).errorOutput = log.errorOutput := by
  induction opts generalizing log with
  | nil => rfl
  | cons o os ih =>
    have ho := h o (List.mem_cons_self _ _)
    have ht : ∀ o2 ∈ os, setsErrorOutput o2 = false :=
      fun o2 h2 => h o2 (List.mem_cons_of_mem _ h2)
    rw [WithOptions_cons, ih _ ht]
    cases o with
    | ErrorOutput w => simp [setsErrorOutput] at ho
    | WrapCore f => rfl
    | Fields fs => rfl
    | AddCaller => rfl
    | AddCallerSkip n => rfl
    | AddStacktrace l => rfl

/-- Options that add nothing to the lines leave the caller and stack trace
settings of the logger and add no fields. -/
theorem WithOptions_plain {σ : Type} (opts : List (zap.Opt σ)) (log : zap.Logger σ)
    (h : ∀ o ∈ opts, addsToLine o = false) :
    (log.WithOptions opts).addCaller = log.addCaller ∧
    (log.WithOptions opts).addStack = log.addStack ∧
    addedFields opts = [] := by
  induction opts generalizing log with
  | nil => exact ⟨rfl, rfl, rfl⟩
  | cons o os ih =>
    have ho := h o (List.mem_cons_self _ _)
    have ht : ∀ o2 ∈ os, addsToLine o2 = false :=
      fun o2 h2 => h o2 (List.mem_cons_of_mem _ h2)
    obtain ⟨h1, h2, h3⟩ := ih (o.apply log) ht
    rw [WithOptions_cons, h1, h2]
    cases o with
    | ErrorOutput w => exact ⟨rfl, rfl, by simpa [addedFields] using h3⟩
    | WrapCore f => exact ⟨rfl, rfl, by simpa [addedFields] using h3⟩
    | Fields fs => simp [addsToLine] at ho
    | AddCaller => simp [addsToLine] at ho
    | AddCallerSkip n => exact ⟨rfl, rfl, by simpa [addedFields] using h3⟩
    | AddStacktrace l => simp [addsToLine] at ho

/-- `NewLogger` is `zap.New` on the core with the configured level, with its
own error output first and the wrapped zap options after it. -/
theorem NewLogger_eq {σ : Type} (t : TestingT σ) (opts : List (LoggerOption σ)) :
    NewLogger t opts =
      zap.New
        (zapcore.NewCore zapcore.NewConsoleEncoder (NewTestingWriter t).syncer
          (NewLogger.cfg opts).Level)
        (zap.Opt.ErrorOutput ((NewTestingWriter t).WithMarkFailed true).syncer ::
          (NewLogger.cfg opts).ZapOptions) := rfl

theorem NewLogger_unfold {σ : Type} (t : TestingT σ) (opts : List (LoggerOption σ)) :
    NewLogger t opts =
      zap.Logger.WithOptions
        { core := zapcore.NewCore zapcore.NewConsoleEncoder (NewTestingWriter t).syncer
            (NewLogger.cfg opts).Level,
          errorOutput := ((NewTestingWriter t).WithMarkFailed true).syncer,
          addCaller := false, callerSkip := 0, addStack := fun _ => false }
        (NewLogger.cfg opts).ZapOptions := rfl

theorem NewLogger_core {σ : Type} (t : TestingT σ) (opts : List (LoggerOption σ))
    (h : ∀ o ∈ (NewLogger.cfg opts).ZapOptions, wrapsCore o = false) :
    (NewLogger t opts).core =
      { enc := zapcore.NewConsoleEncoder, out := (NewTestingWriter t).syncer,
        enab := (NewLogger.cfg opts).Level,
        context := addedFields (NewLogger.cfg opts).ZapOptions } := by
  rw [NewLogger_unfold, WithOptions_core _ _ h]
  simp [zapcore.NewCore]

theorem NewLogger_errorOutput {σ : Type} (t : TestingT σ) (opts : List (LoggerOption σ))
    (h : ∀ o ∈ (NewLogger.cfg opts).ZapOptions, setsErrorOutput o = false) :
    (NewLogger t opts).errorOutput = ((NewTestingWriter t).WithMarkFailed true).syncer := by
  rw [NewLogger_unfold, WithOptions_errorOutput _ _ h]

theorem NewLogger_plain {σ : Type} (t : TestingT σ) (opts : List (LoggerOption σ))
    (h : ∀ o ∈ (NewLogger.cfg opts).ZapOptions, addsToLine o = false) :
    (NewLogger t opts).addCaller = false ∧
    (NewLogger t opts).addStack = (fun _ => false) ∧
    addedFields (NewLogger.cfg opts).ZapOptions = [] := by
  rw [NewLogger_unfold]
  exact WithOptions_plain _ _ h

theorem tab_ne_newline : TAB ≠ NL := by decide

/-- With a timestamp that has no tab, what the spy keeps of the line of a
call is the level name, the caller column, a tab, and the message with the
fields column and the stack trace, without trailing newlines. -/
theorem spiedLine_eq {σ : Type} (log : zap.Logger σ) (c : zap.Call)
    (h : TAB ∉ c.now.stamp) : spiedLine log c = capturedLine log c := by
  have e : zapcore.NewConsoleEncoder (log.entry c.lvl c.now c.msg c.site)
      (log.core.context ++ c.fields) =
      c.now.stamp ++ TAB :: ((c.lvl.CapitalString ++
          zapcore.callerColumn (log.entry c.lvl c.now c.msg c.site).Caller) ++ TAB ::
        ((c.msg ++ zapcore.fieldsColumn (log.core.context ++ c.fields) ++
          zapcore.stackLines (log.entry c.lvl c.now c.msg c.site).Stack) ++ [NL])) := by
    simp [zapcore.NewConsoleEncoder, zap.Logger.entry]
  unfold spiedLine
  rw [e, TrimRight_append _ _ TAB tab_ne_newline, TrimRight_append _ _ TAB tab_ne_newline,
    TrimRight_snoc_newline, afterFirstTab_first _ _ h]
  simp [capturedLine]

/-- A log call on a logger that kept the encoder, sink and level of the core
of `NewLogger` over the spy: an enabled call leaves its line in the spy, a
call that is not enabled leaves the spy as it is; the outcome is the one of
the severity. -/
theorem Log_on_spy (log : zap.Logger testLogSpy) (enab : zapcore.LevelEnabler)
    (ctx : List zapcore.Field)
    (hc : log.core =
      { enc := zapcore.NewConsoleEncoder, out := (NewTestingWriter spyT).syncer,
        enab := enab, context := ctx })
    (c : zap.Call) (s : testLogSpy) :
    log.Log c.lvl c.now c.msg c.fields c.site s =
      some (zap.afterWrite c.lvl c.msg,
        if enab c.lvl then s.captured (spiedLine log c) else s) := by
  unfold zap.Logger.Log spiedLine
  rw [hc]
  simp only [zapcore.Core.Enabled, zapcore.Core.Write, TestingWriter.syncer]
  have e : NewTestingWriter spyT = { t := spyT, markFailed := false } := rfl
  rw [e]
  cases henab : enab c.lvl
  · simp
  · simp only [if_true, Write_spy]
    simp [testLogSpy.captured]

end zaptest

namespace zaptest

/-! ## The option builder -/

theorem cfg_foldl_Level {σ : Type} (ks : List (OptionCall σ)) (c : LoggerOptions σ)
    (h : ∀ k ∈ ks, k.isLevel = false) :
    ((ks.map OptionCall.option).foldl (fun cfg o => o cfg) c).Level = c.Level := by
  induction ks generalizing c with
  | nil => rfl
  | cons k ks ih =>
    have hk := h k (List.mem_cons_self _ _)
    have ht : ∀ k2 ∈ ks, k2.isLevel = false := fun k2 h2 => h k2 (List.mem_cons_of_mem _ h2)
    rw [List.map_cons, List.foldl_cons, ih _ ht]
    cases k with
    | level e => simp [OptionCall.isLevel] at hk
    | wrap zs => rfl

/-- C9: the logger `NewLogger` returns is built by `zap.New` on a core that
has the configured level enabler, and that enabler is the one of `DebugLevel`
for every option list without a `Level` option and the one of the last
`Level` option for every list that has one.  When the wrapped zap options do
not replace the core, it is the enabler of the core of the returned logger,
which by default enables every severity, debug and above.  A `WrapOptions`
entry never changes the configured level. -/
theorem NewLogger_level {σ : Type} (t : TestingT σ) (ks : List (OptionCall σ)) :
    ((∀ k ∈ ks, k.isLevel = false) →
      (NewLogger.cfg (ks.map OptionCall.option)).Level =
          zapcore.Level.Enabled zapcore.Level.DebugLevel ∧
      NewLogger t (ks.map OptionCall.option) =
        zap.New
          (zapcore.NewCore zapcore.NewConsoleEncoder (NewTestingWriter t).syncer
            (zapcore.Level.Enabled zapcore.Level.DebugLevel))
          (zap.Opt.ErrorOutput ((NewTestingWriter t).WithMarkFailed true).syncer ::
            (NewLogger.cfg (ks.map OptionCall.option)).ZapOptions) ∧
      ((∀ o ∈ (NewLogger.cfg (ks.map OptionCall.option)).ZapOptions, wrapsCore o = false) →
        (NewLogger t (ks.map OptionCall.option)).core.enab =
            zapcore.Level.Enabled zapcore.Level.DebugLevel ∧
        ∀ lvl, (NewLogger t (ks.map OptionCall.option)).core.Enabled lvl = true)) ∧
    (∀ (before after : List (OptionCall σ)) (enab : zapcore.LevelEnabler),
      ks = before ++ OptionCall.level enab :: after → (∀ k ∈ after, k.isLevel = false) →
      (NewLogger.cfg (ks.map OptionCall.option)).Level = enab ∧
      NewLogger t (ks.map OptionCall.option) =
        zap.New
          (zapcore.NewCore zapcore.NewConsoleEncoder (NewTestingWriter t).syncer enab)
          (zap.Opt.ErrorOutput ((NewTestingWriter t).WithMarkFailed true).syncer ::
            (NewLogger.cfg (ks.map OptionCall.option)).ZapOptions) ∧
      ((∀ o ∈ (NewLogger.cfg (ks.map OptionCall.option)).ZapOptions, wrapsCore o = false) →
        (NewLogger t (ks.map OptionCall.option)).core.enab = enab ∧
        ∀ lvl, (NewLogger t (ks.map OptionCall.option)).core.Enabled lvl = enab lvl)) ∧
    (∀ (zapOpts : List (zap.Opt σ)) (c : LoggerOptions σ),
      (WrapOptions zapOpts c).Level = c.Level) := by
  have key : ∀ enab : zapcore.LevelEnabler,
      (NewLogger.cfg (ks.map OptionCall.option)).Level = enab →
      (NewLogger.cfg (ks.map OptionCall.option)).Level = enab ∧
      NewLogger t (ks.map OptionCall.option) =
        zap.New
          (zapcore.NewCore zapcore.NewConsoleEncoder (NewTestingWriter t).syncer enab)
          (zap.Opt.ErrorOutput ((NewTestingWriter t).WithMarkFailed true).syncer ::
            (NewLogger.cfg (ks.map OptionCall.option)).ZapOptions) ∧
      ((∀ o ∈ (NewLogger.cfg (ks.map OptionCall.option)).ZapOptions, wrapsCore o = false) →
        (NewLogger t (ks.map OptionCall.option)).core.enab = enab ∧
        ∀ lvl, (NewLogger t (ks.map OptionCall.option)).core.Enabled lvl = enab lvl) := by
    intro enab he
    refine ⟨he, ?_, ?_⟩
    · rw [NewLogger_eq, he]
    · intro hcore
      have hc := NewLogger_core t (ks.map OptionCall.option) hcore
      constructor
      · rw [hc, he]
      · intro lvl
        rw [zapcore.Core.Enabled, hc, he]
  refine ⟨?_, ?_, ?_⟩
  · intro h
    obtain ⟨h1, h2, h3⟩ := key _ (cfg_foldl_Level ks _ h)
    refine ⟨h1, h2, fun hcore => ⟨(h3 hcore).1, ?_⟩⟩
    intro lvl
    rw [(h3 hcore).2 lvl]
    simp [zapcore.Level.Enabled, zapcore.Level.rank]
  · intro before after enab hks h
    apply key
    subst hks
    unfold NewLogger.cfg
    rw [List.map_append, List.foldl_append, List.map_cons, List.foldl_cons,
      cfg_foldl_Level after _ h]
    rfl
  · intro zapOpts c
    rfl

/-- C9 on `NewLogger(ts)`, whose core has the level `DebugLevel` and enables
debug severity, and on `NewLogger(ts, Level(WarnLevel), WrapOptions(),
Level(ErrorLevel), WrapOptions())`, whose core has the level `ErrorLevel` and
does not enable warn severity. -/
theorem NewLogger_level_witness :
    ((NewLogger spyT (([] : List (OptionCall testLogSpy)).map OptionCall.option)).core.enab =
        zapcore.Level.Enabled zapcore.Level.DebugLevel ∧
      (NewLogger spyT (([] : List (OptionCall testLogSpy)).map OptionCall.option)).core.Enabled
        zapcore.Level.DebugLevel = true) ∧
    ((NewLogger spyT (([OptionCall.level (zapcore.Level.Enabled zapcore.Level.WarnLevel),
        OptionCall.wrap [],
        OptionCall.level (zapcore.Level.Enabled zapcore.Level.ErrorLevel),
        OptionCall.wrap []] : List (OptionCall testLogSpy)).map OptionCall.option)).core.enab =
        zapcore.Level.Enabled zapcore.Level.ErrorLevel ∧
      (NewLogger spyT (([OptionCall.level (zapcore.Level.Enabled zapcore.Level.WarnLevel),
        OptionCall.wrap [],
        OptionCall.level (zapcore.Level.Enabled zapcore.Level.ErrorLevel),
        OptionCall.wrap []] : List (OptionCall testLogSpy)).map OptionCall.option)).core.Enabled
        zapcore.Level.WarnLevel = false) :=
  ⟨⟨(((NewLogger_level spyT []).1 (by simp)).2.2 (by simp [NewLogger.cfg])).1,
    (((NewLogger_level spyT []).1 (by simp)).2.2 (by simp [NewLogger.cfg])).2 _⟩,
   ⟨((((NewLogger_level spyT _).2.1
      [OptionCall.level (zapcore.Level.Enabled zapcore.Level.WarnLevel), OptionCall.wrap []]
      [OptionCall.wrap []] _ rfl (by simp [OptionCall.isLevel])).2.2
        (by simp [NewLogger.cfg, OptionCall.option, WrapOptions, Level])).1),
    ((((NewLogger_level spyT _).2.1
      [OptionCall.level (zapcore.Level.Enabled zapcore.Level.WarnLevel), OptionCall.wrap []]
      [OptionCall.wrap []] _ rfl (by simp [OptionCall.isLevel])).2.2
        (by simp [NewLogger.cfg, OptionCall.option, WrapOptions, Level])).2 _)⟩⟩

/-- C8, what the code does: a `WrapOptions` overwrites the zap options of an
earlier `WrapOptions`.  After `WrapOptions(a)` and then `WrapOptions(b)` the
configuration of `NewLogger` holds only `b`, so for `a` of one option and `b`
of one option it holds one option, not two. -/
theorem WrapOptions_overwrites :
    (∀ (σ : Type) (a b : List (zap.Opt σ)),
      (NewLogger.cfg [WrapOptions a, WrapOptions b]).ZapOptions = b) ∧
    ((NewLogger.cfg [WrapOptions [zap.Opt.WrapCore (fun c => c)],
        WrapOptions [zap.Opt.ErrorOutput (zap.stderr : zapcore.WriteSyncer testLogSpy)]]
      ).ZapOptions.map wrapsCore = [false]) ∧
    (([zap.Opt.WrapCore (fun c => c)] ++
        [zap.Opt.ErrorOutput (zap.stderr : zapcore.WriteSyncer testLogSpy)]
      ).map wrapsCore = [true, false]) := by
  refine ⟨?_, ?_, ?_⟩
  · intro σ a b
    rfl
  · rfl
  · rfl

end zaptest

namespace zaptest

/-- C4: on a logger built by `NewLogger` with minimum severity `L` (the zap
options keep its core), a log call whose severity is below `L` leaves the spy
exactly as it was: no entry is added to `Messages` and the test is not marked
failed.  The call ends as its severity says: it returns, unless it is a call
at panic severity below the minimum `FatalLevel`, which raises its panic. -/
theorem below_minimum_not_captured (opts : List (LoggerOption testLogSpy))
    (L lvl : zapcore.Level) (now : zapcore.Time) (msg : GoString)
    (fields : List zapcore.Field) (site : zap.Site) (s : testLogSpy)
    (hcore : ∀ o ∈ (NewLogger.cfg opts).ZapOptions, wrapsCore o = false)
    (hL : (NewLogger.cfg opts).Level = zapcore.Level.Enabled L)
    (hlt : lvl.rank < L.rank) :
    ∃ (out : zap.Outcome) (s2 : testLogSpy),
      (NewLogger spyT opts).Log lvl now msg fields site s = some (out, s2) ∧
      s2.Messages = s.Messages ∧ s2.failed = s.failed ∧ s2 = s ∧
      (lvl ≠ zapcore.Level.PanicLevel → out = zap.Outcome.returned) := by
  have hoff : zapcore.Level.Enabled L lvl = false := by
    simp only [zapcore.Level.Enabled, decide_eq_false_iff_not]
    omega
  refine ⟨zap.afterWrite lvl msg, s, ?_, rfl, rfl, rfl, ?_⟩
  · unfold zap.Logger.Log
    rw [NewLogger_core spyT opts hcore, hL]
    simp [zapcore.Core.Enabled, hoff]
  · intro hp
    cases lvl <;> cases L <;> simp [zapcore.Level.rank] at hlt <;>
      first
        | rfl
        | exact absurd rfl hp

/-- C4 on `NewLogger(ts, Level(WarnLevel))`: an Info call leaves the fresh spy
as it is. -/
theorem below_minimum_not_captured_witness :
    ∃ (out : zap.Outcome) (s2 : testLogSpy),
      (NewLogger spyT [Level (zapcore.Level.Enabled zapcore.Level.WarnLevel)]).Log
        zapcore.Level.InfoLevel sampleTime (utf8 "received work order") []
        (siteAt (utf8 "zaptest/logger_test.go:68")) freshSpy = some (out, s2) ∧
      s2.Messages = freshSpy.Messages ∧ s2.failed = freshSpy.failed ∧ s2 = freshSpy ∧
      (zapcore.Level.InfoLevel ≠ zapcore.Level.PanicLevel → out = zap.Outcome.returned) :=
  below_minimum_not_captured [Level (zapcore.Level.Enabled zapcore.Level.WarnLevel)]
    zapcore.Level.WarnLevel zapcore.Level.InfoLevel sampleTime (utf8 "received work order") []
    (siteAt (utf8 "zaptest/logger_test.go:68")) freshSpy (by simp [NewLogger.cfg, Level]) rfl
    (by decide)

theorem runCalls_on_spy (log : zap.Logger testLogSpy) (enab : zapcore.LevelEnabler)
    (ctx : List zapcore.Field)
    (hc : log.core =
      { enc := zapcore.NewConsoleEncoder, out := (NewTestingWriter spyT).syncer,
        enab := enab, context := ctx })
    (calls : List zap.Call)
    (hen : ∀ c ∈ calls, enab c.lvl = true) (s : testLogSpy) :
    ∃ (made : Nat) (s2 : testLogSpy),
      log.runCalls calls s = some (made, s2) ∧
      s2.Messages = s.Messages ++ (calls.take made).map (spiedLine log) ∧
      s2.failed = s.failed ∧
      made ≤ calls.length ∧
      ((∀ c ∈ calls, c.lvl ≠ zapcore.Level.FatalLevel) → made = calls.length) := by
  induction calls generalizing s with
  | nil => exact ⟨0, s, rfl, by simp, rfl, by simp, fun _ => rfl⟩
  | cons c cs ih =>
    have hen1 := hen c (List.mem_cons_self _ _)
    have step := Log_on_spy log enab ctx hc c s
    rw [hen1, if_pos rfl] at step
    obtain ⟨made, s2, hrun, hmsg, hfail, hle, hall⟩ :=
      ih (fun c2 h2 => hen c2 (List.mem_cons_of_mem _ h2)) (s.captured (spiedLine log c))
    by_cases hf : c.lvl = zapcore.Level.FatalLevel
    · refine ⟨1, s.captured (spiedLine log c), ?_, by simp [testLogSpy.captured], rfl,
        by simp, ?_⟩
      · have ha : zap.afterWrite c.lvl c.msg = zap.Outcome.exited := by rw [hf]; rfl
        rw [ha] at step
        simp only [zap.Logger.runCalls, step]
      · intro hno
        exact absurd hf (hno c (List.mem_cons_self _ _))
    · refine ⟨made + 1, s2, ?_, ?_, ?_, by simp; omega, ?_⟩
      · have ha : zap.afterWrite c.lvl c.msg ≠ zap.Outcome.exited := by
          revert hf
          cases c.lvl <;> simp [zap.afterWrite]
        unfold zap.Logger.runCalls
        rw [step]
        cases hout : zap.afterWrite c.lvl c.msg with
        | exited => exact absurd hout ha
        | returned => simp only [hrun]
        | panicked v => simp only [hrun]
      · rw [hmsg]
        simp [testLogSpy.captured]
      · rw [hfail]
        rfl
      · intro hno
        rw [hall (fun c2 h2 => hno c2 (List.mem_cons_of_mem _ h2))]
        rfl

/-- C5: on a logger built by `NewLogger` over a fresh spy (the zap options
keep its core), a sequence of log calls whose severities are all enabled by
the configured level leaves one entry per call made, in call order: the
length of `Messages` is the number of calls made and the entries are, in
order, what the spy keeps of the lines of the calls made; with timestamps
that hold no tab, that is the level name, the caller column if the logger
records callers, a tab and the message with its fields and stack trace.  The
test is not marked failed.  Every call of the sequence is made unless one at
fatal severity ends the process. -/
theorem entries_match_calls (opts : List (LoggerOption testLogSpy))
    (calls : List zap.Call) (tb : testing.TB)
    (hcore : ∀ o ∈ (NewLogger.cfg opts).ZapOptions, wrapsCore o = false)
    (hen : ∀ c ∈ calls, (NewLogger.cfg opts).Level c.lvl = true) :
    ∃ (made : Nat) (s : testLogSpy),
      (NewLogger spyT opts).runCalls calls (newTestLogSpy tb) = some (made, s) ∧
      s.Messages.length = made ∧
      s.Messages = (calls.take made).map (spiedLine (NewLogger spyT opts)) ∧
      ((∀ c ∈ calls, TAB ∉ c.now.stamp) →
        s.Messages = (calls.take made).map (capturedLine (NewLogger spyT opts))) ∧
      s.failed = false ∧
      ((∀ c ∈ calls, c.lvl ≠ zapcore.Level.FatalLevel) → made = calls.length) := by
  obtain ⟨made, s, hrun, hmsg, hfail, hle, hall⟩ :=
    runCalls_on_spy (NewLogger spyT opts) _ _ (NewLogger_core spyT opts hcore) calls hen
      (newTestLogSpy tb)
  have hm : s.Messages = (calls.take made).map (spiedLine (NewLogger spyT opts)) := by
    rw [hmsg]
    rfl
  refine ⟨made, s, hrun, ?_, hm, ?_, ?_, hall⟩
  · rw [hm, List.length_map, List.length_take]
    omega
  · intro hts
    rw [hm]
    apply List.map_congr_left
    intro c hc
    exact spiedLine_eq _ c (hts c (List.mem_of_mem_take hc))
  · rw [hfail]
    rfl

end zaptest

namespace zaptest

set_option maxRecDepth 20000 in
/-- C5 on the calls of `TestTestLogger` made on `NewLogger(ts)`: five calls,
five entries, in call order. -/
theorem entries_match_calls_witness :
    ∃ (made : Nat) (s : testLogSpy),
      (NewLogger spyT []).runCalls testLoggerCalls freshSpy = some (made, s) ∧
      s.Messages.length = made ∧
      s.Messages = (testLoggerCalls.take made).map (spiedLine (NewLogger spyT [])) ∧
      ((∀ c ∈ testLoggerCalls, TAB ∉ c.now.stamp) →
        s.Messages = (testLoggerCalls.take made).map (capturedLine (NewLogger spyT []))) ∧
      s.failed = false ∧
      ((∀ c ∈ testLoggerCalls, c.lvl ≠ zapcore.Level.FatalLevel) →
        made = testLoggerCalls.length) :=
  entries_match_calls [] testLoggerCalls { output := [] } (by simp [NewLogger.cfg])
    (by decide)

set_option maxRecDepth 20000 in
/-- The entries the calls of the tests leave on `NewLogger(ts)`, on
`NewLogger(ts, Level(WarnLevel))` and on `NewLogger(ts,
WrapOptions(zap.AddCaller(), zap.Fields(zap.String("k1", "v1"))))`: the ones
the tests assert. -/
theorem testLoggerCalls_messages :
    ((NewLogger spyT []).runCalls testLoggerCalls freshSpy).map (fun r => r.2.Messages) =
      some [utf8 "INFO\treceived work order", utf8 "DEBUG\tstarting work",
        utf8 "WARN\twork may fail",
        utf8 "ERROR\twork failed\t\x7b\"error\": \"great sadness\"\x7d",
        utf8 "PANIC\tfailed to do work"] ∧
    ((NewLogger spyT [Level (zapcore.Level.Enabled zapcore.Level.WarnLevel)]).runCalls
        testLoggerCalls freshSpy).map (fun r => r.2.Messages) =
      some [utf8 "WARN\twork may fail",
        utf8 "ERROR\twork failed\t\x7b\"error\": \"great sadness\"\x7d",
        utf8 "PANIC\tfailed to do work"] ∧
    ((NewLogger spyT [WrapOptions [zap.Opt.AddCaller,
          zap.Opt.Fields [utf8 "\"k1\": \"v1\""]]]).runCalls
        testLoggerCalls freshSpy).map (fun r => r.2.Messages) =
      some [utf8 "INFO\tzaptest/logger_test.go:89\treceived work order\t\x7b\"k1\": \"v1\"\x7d",
        utf8 "DEBUG\tzaptest/logger_test.go:90\tstarting work\t\x7b\"k1\": \"v1\"\x7d",
        utf8 "WARN\tzaptest/logger_test.go:91\twork may fail\t\x7b\"k1\": \"v1\"\x7d",
        utf8 ("ERROR\tzaptest/logger_test.go:92\twork failed\t" ++
          "\x7b\"k1\": \"v1\", \"error\": \"great sadness\"\x7d"),
        utf8 "PANIC\tzaptest/logger_test.go:95\tfailed to do work\t\x7b\"k1\": \"v1\"\x7d"] := by
  decide

end zaptest

namespace zaptest

/-! ## Panic severity and internal errors -/

theorem utf8_panic_tab : utf8 "PANIC\t" = zapcore.Level.PanicLevel.CapitalString ++ [TAB] := by
  decide

set_option maxRecDepth 8000 in
/-- C6 fails for the minimum severity `FatalLevel`: on
`NewLogger(ts, Level(FatalLevel))` the call `Panic("failed to do work")`
raises its panic with nothing recorded, so `PANIC\tfailed to do work` is not
the last captured entry. -/
theorem panic_below_fatal_not_recorded :
    (NewLogger spyT [Level (zapcore.Level.Enabled zapcore.Level.FatalLevel)]).Log
        zapcore.Level.PanicLevel sampleTime (utf8 "failed to do work") []
        (siteAt (utf8 "zaptest/logger_test.go:95")) freshSpy =
      some (zap.Outcome.panicked (utf8 "failed to do work"), freshSpy) ∧
    freshSpy.Messages = [] ∧
    freshSpy.Messages.getLast? ≠ some (utf8 "PANIC\tfailed to do work") := by
  decide

/-- A log call at panic severity ends in a runtime panic, whatever the
logger: the panic of the severity, or one raised while the line is written. -/
theorem Log_panic_level {σ : Type} (log : zap.Logger σ) (now : zapcore.Time)
    (text : GoString) (fields : List zapcore.Field) (site : zap.Site) (s : σ) :
    log.Log zapcore.Level.PanicLevel now text fields site s = none ∨
      ∃ s2, log.Log zapcore.Level.PanicLevel now text fields site s =
        some (zap.Outcome.panicked text, s2) := by
  unfold zap.Logger.Log
  simp only [zap.afterWrite]
  cases log.core.Enabled zapcore.Level.PanicLevel
  · exact Or.inr ⟨s, by simp⟩
  · simp only [if_true]
    cases hw : log.core.Write (log.entry zapcore.Level.PanicLevel now text site)
        fields s with
    | none => exact Or.inl rfl
    | some r =>
      obtain ⟨e, s1⟩ := r
      cases e with
      | none => exact Or.inr ⟨s1, rfl⟩
      | some err =>
        dsimp only
        cases he : log.errorOutput.Write
            (now.text ++ utf8 " write error: " ++ err ++ [NL]) s1 with
        | none => exact Or.inl rfl
        | some r2 =>
          obtain ⟨r, s2⟩ := r2
          exact Or.inr ⟨s2, rfl⟩

/-- The line of a panic call without fields, on a logger whose options add
nothing to the lines, for a text that does not end in a newline. -/
theorem capturedLine_panic (opts : List (LoggerOption testLogSpy)) (now : zapcore.Time)
    (text : GoString) (site : zap.Site)
    (hcore : ∀ o ∈ (NewLogger.cfg opts).ZapOptions, wrapsCore o = false)
    (hplain : ∀ o ∈ (NewLogger.cfg opts).ZapOptions, addsToLine o = false)
    (hnl : text.getLast? ≠ some NL) :
    capturedLine (NewLogger spyT opts) ⟨zapcore.Level.PanicLevel, now, text, [], site⟩ =
      utf8 "PANIC\t" ++ text := by
  obtain ⟨h1, h2, h3⟩ := NewLogger_plain spyT opts hplain
  have hc := NewLogger_core spyT opts hcore
  unfold capturedLine zap.Logger.entry
  rw [hc, h1, h2, h3]
  simp [zapcore.callerColumn, zapcore.stackLines, zapcore.fieldsColumn,
    TrimRight_id text hnl, utf8_panic_tab]

/-- C6, amended: on every logger built by `NewLogger`, whatever the minimum
severity and the options, a log call at panic severity raises a runtime
panic.  When the zap options do not replace the core of `NewLogger`, the
panic is the one of the severity, with the message; if the configured level
enables panic severity it comes after the line of the call has been recorded
as the last entry of `Messages`: the level name, the caller column if the
logger records callers, and the text with the fields and the stack trace (the
timestamp holds no tab).  That entry is `PANIC\t<text>` when moreover no zap
option adds fields, a caller or a stack trace to the lines, the call has no
fields and its text does not end in a newline.  If the level does not enable
panic severity nothing is recorded. -/
theorem panic_after_record (opts : List (LoggerOption testLogSpy)) (now : zapcore.Time)
    (text : GoString) (fields : List zapcore.Field) (site : zap.Site) (s : testLogSpy) :
    ((NewLogger spyT opts).Log zapcore.Level.PanicLevel now text fields site s = none ∨
      ∃ s2, (NewLogger spyT opts).Log zapcore.Level.PanicLevel now text fields site s =
        some (zap.Outcome.panicked text, s2)) ∧
    ((∀ o ∈ (NewLogger.cfg opts).ZapOptions, wrapsCore o = false) →
      ∃ s2 : testLogSpy,
        (NewLogger spyT opts).Log zapcore.Level.PanicLevel now text fields site s =
          some (zap.Outcome.panicked text, s2) ∧
        ((NewLogger.cfg opts).Level zapcore.Level.PanicLevel = true →
          s2.Messages = s.Messages ++
            [spiedLine (NewLogger spyT opts)
              ⟨zapcore.Level.PanicLevel, now, text, fields, site⟩] ∧
          s2.failed = s.failed ∧
          (TAB ∉ now.stamp →
            s2.Messages.getLast? = some (capturedLine (NewLogger spyT opts)
              ⟨zapcore.Level.PanicLevel, now, text, fields, site⟩)) ∧
          (TAB ∉ now.stamp →
            (∀ o ∈ (NewLogger.cfg opts).ZapOptions, addsToLine o = false) →
            fields = [] → text.getLast? ≠ some NL →
            s2.Messages.getLast? = some (utf8 "PANIC\t" ++ text))) ∧
        ((NewLogger.cfg opts).Level zapcore.Level.PanicLevel = false → s2 = s)) := by
  refine ⟨Log_panic_level _ now text fields site s, ?_⟩
  intro hcore
  have step := Log_on_spy (NewLogger spyT opts) _ _ (NewLogger_core spyT opts hcore)
    ⟨zapcore.Level.PanicLevel, now, text, fields, site⟩ s
  refine ⟨_, step, ?_, ?_⟩
  · intro hen
    simp only [hen, if_true]
    refine ⟨rfl, rfl, ?_, ?_⟩
    · intro hts
      rw [spiedLine_eq _ ⟨zapcore.Level.PanicLevel, now, text, fields, site⟩ hts]
      simp [testLogSpy.captured]
    · intro hts hplain hf hnl
      subst hf
      rw [spiedLine_eq _ ⟨zapcore.Level.PanicLevel, now, text, [], site⟩ hts,
        capturedLine_panic opts now text site hcore hplain hnl]
      simp [testLogSpy.captured]
  · intro hoff
    simp [hoff]

set_option maxRecDepth 8000 in
/-- C6, amended, on `NewLogger(ts)` and `Panic("failed to do work")`: the
panic is raised and `PANIC\tfailed to do work` is the last entry. -/
theorem panic_after_record_witness :
    ∃ s2 : testLogSpy,
      (NewLogger spyT []).Log zapcore.Level.PanicLevel sampleTime (utf8 "failed to do work")
          [] (siteAt (utf8 "zaptest/logger_test.go:57")) freshSpy =
        some (zap.Outcome.panicked (utf8 "failed to do work"), s2) ∧
      s2.Messages.getLast? = some (utf8 "PANIC\t" ++ utf8 "failed to do work") := by
  obtain ⟨s2, h1, h2, _⟩ := (panic_after_record [] sampleTime (utf8 "failed to do work") []
    (siteAt (utf8 "zaptest/logger_test.go:57")) freshSpy).2 (by simp [NewLogger.cfg])
  exact ⟨s2, h1, (h2 rfl).2.2.2 (by decide) (by simp [NewLogger.cfg]) rfl (by decide)⟩

set_option maxRecDepth 8000 in
/-- C7 fails when a wrapped zap option replaces the error output: on
`NewLogger(ts, WrapOptions(zap.WrapCore(failing core), zap.ErrorOutput(stderr)))`
the call `Info("foo")` meets the failing sink, and afterwards the spy has not
failed and has captured no message. -/
theorem error_output_replaced :
    (NewLogger spyT
        [WrapOptions [zap.Opt.WrapCore (fun _ => failingCore),
          zap.Opt.ErrorOutput zap.stderr]]).Log
        zapcore.Level.InfoLevel sampleTime (utf8 "foo") []
        (siteAt (utf8 "zaptest/logger_test.go:148")) freshSpy =
      some (zap.Outcome.returned, freshSpy) ∧
    freshSpy.failed = false ∧ freshSpy.Messages = [] := by
  decide

theorem write_error_line (text err : GoString) (h : err.getLast? ≠ some NL) :
    bytes.TrimRight (text ++ utf8 " write error: " ++ err ++ [NL]) (utf8 "\n") =
      text ++ utf8 " write error: " ++ err := by
  rw [TrimRight_snoc_newline]
  apply TrimRight_id
  rcases List.eq_nil_or_concat err with he | ⟨l, b, he⟩
  · subst he
    have e : utf8 " write error: " = utf8 " write error:" ++ [32] := by decide
    rw [List.append_nil, e, ← List.append_assoc, List.getLast?_append]
    simp
    decide
  · subst he
    rw [List.concat_eq_append] at h ⊢
    rw [← List.append_assoc, List.getLast?_append]
    simpa using h

/-- C7, amended: take a logger built by `NewLogger` over a spy, with further
zap options applied or not, where no zap option replaces the error output.
When the sink of its core fails with an error on an enabled log call, the
line `<time> write error: <error>` is written through the `TestingWriter`
with `markFailed` true over that spy: afterwards the failed flag is true and
exactly one more message has been captured; it is the line itself when
neither the time text nor the error holds a tab and the error does not end
in a newline.  The call returns when its severity is below panic. -/
theorem sink_error_marks_failed (opts : List (LoggerOption testLogSpy))
    (extra : List (zap.Opt testLogSpy)) (lvl : zapcore.Level) (now : zapcore.Time)
    (msg : GoString) (fields : List zapcore.Field) (site : zap.Site) (n : Nat)
    (err : GoString) (s s1 : testLogSpy)
    (hopts : ∀ o ∈ (NewLogger.cfg opts).ZapOptions, setsErrorOutput o = false)
    (hextra : ∀ o ∈ extra, setsErrorOutput o = false)
    (hen : ((NewLogger spyT opts).WithOptions extra).core.Enabled lvl = true)
    (hfail : ((NewLogger spyT opts).WithOptions extra).core.out.Write
        (((NewLogger spyT opts).WithOptions extra).core.enc
          (((NewLogger spyT opts).WithOptions extra).entry lvl now msg site)
          (((NewLogger spyT opts).WithOptions extra).core.context ++ fields)) s =
        some ((n, some err), s1)) :
    ∃ (out : zap.Outcome) (s2 : testLogSpy),
      ((NewLogger spyT opts).WithOptions extra).Log lvl now msg fields site s =
        some (out, s2) ∧
      s2.failed = true ∧
      s2.Messages = s1.Messages ++
        [afterFirstTab (bytes.TrimRight (now.text ++ utf8 " write error: " ++ err ++ [NL])
          (utf8 "\n"))] ∧
      (TAB ∉ now.text → TAB ∉ err → err.getLast? ≠ some NL →
        s2.Messages = s1.Messages ++ [now.text ++ utf8 " write error: " ++ err]) ∧
      (lvl.rank < zapcore.Level.PanicLevel.rank → out = zap.Outcome.returned) := by
  have heo : ((NewLogger spyT opts).WithOptions extra).errorOutput =
      ((NewTestingWriter spyT).WithMarkFailed true).syncer := by
    rw [WithOptions_errorOutput extra _ hextra, NewLogger_errorOutput spyT opts hopts]
  have hw : ((NewTestingWriter spyT).WithMarkFailed true) =
      { t := spyT, markFailed := true } := rfl
  have hlog : ((NewLogger spyT opts).WithOptions extra).Log lvl now msg fields site s =
      some (zap.afterWrite lvl msg,
        { TB := s1.TB.Log (afterFirstTab (bytes.TrimRight
            (now.text ++ utf8 " write error: " ++ err ++ [NL]) (utf8 "\n"))),
          failed := true || s1.failed,
          Messages := s1.Messages ++ [afterFirstTab (bytes.TrimRight
            (now.text ++ utf8 " write error: " ++ err ++ [NL]) (utf8 "\n"))] }) := by
    unfold zap.Logger.Log
    simp only [hen, if_true, zapcore.Core.Write, hfail, heo, hw, TestingWriter.syncer,
      Write_spy]
  refine ⟨zap.afterWrite lvl msg, _, hlog, ?_, ?_, ?_, ?_⟩
  · simp
  · rfl
  · intro h1 h2 h3
    have hno : TAB ∉ now.text ++ utf8 " write error: " ++ err := by
      have h4 : TAB ∉ utf8 " write error: " := by decide
      simp [h1, h2, h4]
    simp only [write_error_line now.text err h3, afterFirstTab_absent _ hno]
  · intro hl
    cases lvl <;> simp [zapcore.Level.rank] at hl <;> rfl

set_option maxRecDepth 8000 in
/-- C7, amended, on `TestTestLoggerErrorOutput`: `NewLogger(ts)` with its core
replaced by one over a failing sink; after `Info("foo")` the spy has failed
and holds the one message `<time> write error: failed`. -/
theorem sink_error_marks_failed_witness :
    ∃ (out : zap.Outcome) (s2 : testLogSpy),
      ((NewLogger spyT []).WithOptions [zap.Opt.WrapCore (fun _ => failingCore)]).Log
        zapcore.Level.InfoLevel sampleTime (utf8 "foo") []
        (siteAt (utf8 "zaptest/logger_test.go:148")) freshSpy = some (out, s2) ∧
      s2.failed = true ∧
      s2.Messages = [sampleTime.text ++ utf8 " write error: " ++ utf8 "failed"] ∧
      out = zap.Outcome.returned := by
  obtain ⟨out, s2, h1, h2, _, h4, h5⟩ := sink_error_marks_failed []
    [zap.Opt.WrapCore (fun _ => failingCore)] zapcore.Level.InfoLevel sampleTime (utf8 "foo")
    [] (siteAt (utf8 "zaptest/logger_test.go:148")) 0 (utf8 "failed") freshSpy freshSpy
    (by simp [NewLogger.cfg]) (by simp [setsErrorOutput]) rfl rfl
  exact ⟨out, s2, h1, h2, h4 (by decide) (by decide) (by decide), h5 (by decide)⟩

end zaptest
